import Mathlib

/-!
Shallow embedding of the Halite game environment sources
(`src/environment/model/Map.cpp` and `src/environment/main.cpp`)
together with theorems settling the specification claims about them.

Conventions:
* `dimension_type` (a signed integer type in the C++ source) is `Int`.
  All C++ `%` expressions in `Map.cpp` are applied to non-negative
  dividends, where C++ truncated `%` and Lean's `Int.emod` agree.
* Grid cells carry an opaque type parameter `α`: the cell type and its
  own stream encoding live outside the translated files, so encodings
  of cells (and of `GameStatistics` in quiet mode) are passed as
  function parameters.
* Imperative stream output (`os << x << y << ...`) is modelled as the
  list of written chunks; the observable output is `String.join` of
  that list.
-/

namespace hlt

/-- Location: a `std::pair` of coordinates, `(x, y)` as `(first, second)`.
The source coordinate type `dimension_type` is a signed integer, written
`Int` throughout. -/
abbrev Location := Int × Int

/-- Direction of movement, as in the source enum. -/
inductive Direction : Type
  | North
  | South
  | East
  | West
deriving DecidableEq, Repr

/-- Map: width, height, and the grid of cells (row-major, `grid[y][x]`).
The cell type is opaque here (its definition is outside the translated file). -/
structure Map (α : Type) : Type where
  width : Int
  height : Int
  grid : List (List α)

/-- A location is in bounds of the map. -/
abbrev Map.inBounds (m : Map α) (l : Location) : Prop :=
  0 ≤ l.1 ∧ l.1 < m.width ∧ 0 ≤ l.2 ∧ l.2 < m.height

/-- Translation of `Map::get_neighbors` (Map.cpp lines 18-26):
returns the array
`{(x+1)%w, y}, {(x-1+w)%w, y}, {x, (y+1)%h}, {x, (y-1+h)%h}`. -/
def Map.get_neighbors (m : Map α) (location : Location) : List Location :=
  let x := location.1
  let y := location.2
  [((x + 1) % m.width, y),
   ((x - 1 + m.width) % m.width, y),
   (x, (y + 1) % m.height),
   (x, (y - 1 + m.height) % m.height)]

/-- Translation of `Map::distance` (Map.cpp lines 35-39):
`min(x_dist, width - x_dist) + min(y_dist, height - y_dist)` where
`x_dist = abs(from.first - to.first)` and similarly for `y`. -/
def Map.distance (m : Map α) (fromLoc toLoc : Location) : Int :=
  let x_dist := |fromLoc.1 - toLoc.1|
  let y_dist := |fromLoc.2 - toLoc.2|
  min x_dist (m.width - x_dist) + min y_dist (m.height - y_dist)

/-- Translation of `Map::move_location` (Map.cpp lines 75-92).  The C++
mutates the location in place; this returns the updated location. -/
def Map.move_location (m : Map α) (location : Location) (direction : Direction) :
    Location :=
  match direction with
  | .North => (location.1, (location.2 + m.height - 1) % m.height)
  | .South => (location.1, (location.2 + 1) % m.height)
  | .East => ((location.1 + 1) % m.width, location.2)
  | .West => ((location.1 + m.width - 1) % m.width, location.2)

/-- Translation of `operator<<(std::ostream &, const Map &)` (Map.cpp lines
58-68) as the list of chunks written to the stream: first
`width << " " << height << endl`, then each cell of each row in order. -/
def Map.botSerialChunks (cellEnc : α → String) (m : Map α) : List String :=
  m.grid.foldl (fun os row => row.foldl (fun os2 cell => os2 ++ [cellEnc cell]) os)
    [toString m.width, " ", toString m.height, "\n"]

/-- The observable bot-serial output of a `Map`: the concatenation of the
chunks written by `operator<<`. -/
def Map.botSerial (cellEnc : α → String) (m : Map α) : String :=
  String.join (m.botSerialChunks cellEnc)

/-- Stated from the spec sentence for the refinement claim about the bot
serial format: width, a space, height, a newline, then every cell of the
grid as one dense row-major run with no separators between cells. -/
def botSerialSpec (cellEnc : α → String) (m : Map α) : String :=
  toString m.width ++ " " ++ toString m.height ++ "\n"
    ++ String.join (m.grid.flatten.map cellEnc)

end hlt

/-!
Model of `src/environment/main.cpp`.

Only the parts the claims are about are embedded: the seed selection
(lines 124-129), the bot-launch phase with its override-mode argument
handling (lines 197-242), the post-launch player-count checks and game
creation (lines 244-269), and the final statistics printing (lines
284-301).  The observable behaviour of the setup phase is modelled as the
ordered list of `SetupEvent`s the program performs; `exit(1)` terminates
the program, so no event follows an `exitProgram` event.  Whether
`networking.launch_bot(cmd)` throws is outside the translated file, so it
is a function parameter `launchOk : String → Bool`.
-/

/-- Observable events of the setup phase of `main`. -/
inductive SetupEvent : Type
  | launch (cmd : String)
  | exitProgram (code : Nat)
  | createGame (nPlayers : Nat)
deriving DecidableEq, Repr

/-- Parsed command-line inputs of `main` that the setup phase reads:
the `-o` override switch, the `-n` player-count argument (default 1),
and the trailing unlabeled arguments. -/
structure MainArgs : Type where
  override_names : Bool
  nPlayersArg : Nat
  unlabeledArgs : List String
deriving DecidableEq, Repr

/-- Translation of the override-mode launch loop (main.cpp lines 205-211):
`while (!unlabeledArgs.empty()) { launch_bot(front); pop; names->push_back(front); pop; }`.
Returns the launch events, the collected names, and whether the loop
finished without an exception.  A `launch_bot` throw (modelled by
`launchOk cmd = false`) aborts the loop; the one-element case would read
`front()` of an empty list and is likewise modelled as a failure (it is
unreachable under the evenness pre-check). -/
def overrideLaunchLoop (launchOk : String → Bool) :
    List String → List SetupEvent × List String × Bool
  | [] => ([], [], true)
  | [cmd] =>
    if launchOk cmd then ([SetupEvent.launch cmd], [], false)
    else ([], [], false)
  | cmd :: name :: rest =>
    if launchOk cmd then
      let r := overrideLaunchLoop launchOk rest
      (SetupEvent.launch cmd :: r.1, name :: r.2.1, r.2.2)
    else ([], [], false)

/-- Translation of the default-mode launch loop (main.cpp lines 231-234):
each unlabeled argument is a start command; a throw aborts the loop. -/
def defaultLaunchLoop (launchOk : String → Bool) :
    List String → List SetupEvent × Bool
  | [] => ([], true)
  | cmd :: rest =>
    if launchOk cmd then
      let r := defaultLaunchLoop launchOk rest
      (SetupEvent.launch cmd :: r.1, r.2)
    else ([], false)

/-- Translation of the override branch of `main` (main.cpp lines 197-221):
if the trailing argument count is below 4 or odd, print an error and
`exit(1)` without launching anything; otherwise run the alternating
(command, name) launch loop, and `exit(1)` if it throws. -/
def overridePhase (launchOk : String → Bool) (args : List String) :
    List SetupEvent × Option (List String) :=
  if args.length < 4 ∨ args.length % 2 ≠ 0 then
    ([SetupEvent.exitProgram 1], none)
  else
    let r := overrideLaunchLoop launchOk args
    if r.2.2 then (r.1, some r.2.1)
    else (r.1 ++ [SetupEvent.exitProgram 1], none)

/-- Translation of the default branch of `main` (main.cpp lines 222-242):
at least one start command is required, and a `launch_bot` throw causes
`exit(1)`.  No name list is built in this mode. -/
def defaultPhase (launchOk : String → Bool) (args : List String) :
    List SetupEvent × Option (List String) :=
  if args.length < 1 then ([SetupEvent.exitProgram 1], none)
  else
    let r := defaultLaunchLoop launchOk args
    if r.2 then (r.1, none) else (r.1 ++ [SetupEvent.exitProgram 1], none)

/-- Number of `launch` events in a trace; `networking.player_count()` is the
number of successfully launched bots. -/
def countLaunches (evs : List SetupEvent) : Nat :=
  (evs.filter fun e => match e with | .launch _ => true | _ => false).length

/-- Whether a trace already contains a program exit. -/
def hasExit (evs : List SetupEvent) : Bool :=
  evs.any fun e => match e with | .exitProgram _ => true | _ => false

/-- Translation of the setup phase of `main` (main.cpp lines 197-269): the
launch phase for the selected mode, then — if the program has not exited —
the check `player_count() > 1 && n_players_for_map_creation != 1`
(exit(1) on failure), the promotion `n_players_for_map_creation =
player_count()` when more than one bot is up, the range check
`n > 6 || n < 1` (exit(1) on failure), and finally the `Halite` game
construction. -/
def runSetup (launchOk : String → Bool) (a : MainArgs) :
    List SetupEvent × Option (List String) :=
  let p := if a.override_names then overridePhase launchOk a.unlabeledArgs
    else defaultPhase launchOk a.unlabeledArgs
  if hasExit p.1 then p
  else
    let playerCount := countLaunches p.1
    if playerCount > 1 ∧ a.nPlayersArg ≠ 1 then
      (p.1 ++ [SetupEvent.exitProgram 1], p.2)
    else
      let n := if playerCount > 1 then playerCount else a.nPlayersArg
      if n > 6 ∨ n < 1 then (p.1 ++ [SetupEvent.exitProgram 1], p.2)
      else (p.1 ++ [SetupEvent.createGame n], p.2)

/-- The commands at even positions (0, 2, 4, ...) of the trailing
arguments: in override mode these are the bot start commands. -/
def evenIdx : List String → List String
  | [] => []
  | [c] => [c]
  | c :: _ :: rest => c :: evenIdx rest

/-- The names at odd positions (1, 3, 5, ...) of the trailing arguments:
in override mode these are the supplied player names. -/
def oddIdx : List String → List String
  | [] => []
  | [_] => []
  | _ :: n :: rest => n :: oddIdx rest

/-- Translation of the seed selection (main.cpp lines 124-129): a nonzero
`--seed` argument is used as the seed; otherwise (the argument's default is
0) the seed is the system-clock microsecond count modulo 4294967295. -/
def chooseSeed (seedArg : Nat) (clockMicros : Nat) : Nat :=
  if seedArg ≠ 0 then seedArg else clockMicros % 4294967295

/-- Per-player statistics record; the fields are the ones `main` reads
(the struct itself is defined outside the translated files). -/
structure PlayerStatistics : Type where
  tag : Nat
  rank : Nat
  last_frame_alive : Nat
  total_ship_count : Nat
  damage_dealt : Nat
deriving DecidableEq, Repr

/-- Final match statistics: the ordered per-player records. -/
structure GameStatistics : Type where
  player_statistics : List PlayerStatistics
deriving DecidableEq, Repr

/-- Translation of the non-quiet per-player output statement (main.cpp
lines 291-299) as the list of chunks written to `std::cout`; `getName`
models `my_game->get_name(tag)`. -/
def humanLineChunks (getName : Nat → String) (p : PlayerStatistics) : List String :=
  ["Player #", toString p.tag, ", ", getName p.tag,
   ", came in rank #", toString p.rank,
   " and was last alive on frame #", toString p.last_frame_alive,
   ", producing ", toString p.total_ship_count, " ships",
   " and dealing ", toString p.damage_dealt, " damage", "!\n"]

/-- One player's line of the human-readable summary. -/
def humanLine (getName : Nat → String) (p : PlayerStatistics) : String :=
  String.join (humanLineChunks getName p)

/-- Translation of the final statistics output of `main` (lines 284-301)
as the chunks written to `std::cout`: in quiet mode the machine-parsable
encoding of the statistics object (`operator<<` on `GameStatistics`,
defined outside the translated files and passed as `statsEnc`); otherwise
one human-readable line per player, in order. -/
def finalOutputChunks (quiet : Bool) (statsEnc : GameStatistics → String)
    (getName : Nat → String) (stats : GameStatistics) : List String :=
  if quiet then [statsEnc stats]
  else stats.player_statistics.foldl (fun os p => os ++ humanLineChunks getName p) []

/-- The observable final statistics output. -/
def finalOutput (quiet : Bool) (statsEnc : GameStatistics → String)
    (getName : Nat → String) (stats : GameStatistics) : String :=
  String.join (finalOutputChunks quiet statsEnc getName stats)

/-- Concrete 4-by-6 map (empty grid) used to instantiate the geometry
theorems on concrete inputs. -/
def map46 : hlt.Map Unit := ⟨4, 6, []⟩

/-- Concrete 1-by-1 map (empty grid), the degenerate dimension on which
wraparound neighbors coincide with the cell itself. -/
def mapOne : hlt.Map Unit := ⟨1, 1, []⟩

/-- The player count the setup checks of `main` see once the launch phase
has completed without a failure: in override mode half of the trailing
arguments are start commands, otherwise all of them are. -/
def mainPlayerCount (a : MainArgs) : Nat :=
  if a.override_names then a.unlabeledArgs.length / 2 else a.unlabeledArgs.length

/-- An InvalidMatchSetup input: the `-n` flag conflicts with a multi-bot
launch (main.cpp line 244), or the effective player count for map creation
is outside 1..6 (main.cpp line 254). -/
def invalidMatchSetup (a : MainArgs) : Prop :=
  (mainPlayerCount a > 1 ∧ a.nPlayersArg ≠ 1) ∨
    (if mainPlayerCount a > 1 then mainPlayerCount a else a.nPlayersArg) > 6 ∨
    (if mainPlayerCount a > 1 then mainPlayerCount a else a.nPlayersArg) < 1

/-- Concrete one-player statistics value used to instantiate the
statistics-output theorem. -/
def stats1 : GameStatistics := ⟨[⟨0, 1, 10, 3, 42⟩]⟩

/-! ### Arithmetic helper lemmas for the toroidal geometry -/

theorem emod_succ_eq (x W : Int) (h0 : 0 ≤ x) (h1 : x < W) :
    (x + 1) % W = if x + 1 = W then 0 else x + 1 := by
  by_cases h : x + 1 = W
  · rw [if_pos h, h, Int.emod_self]
  · rw [if_neg h, Int.emod_eq_of_lt (by omega) (by omega)]

theorem emod_pred_eq (x W : Int) (h0 : 0 ≤ x) (h1 : x < W) :
    (x - 1 + W) % W = if x = 0 then W - 1 else x - 1 := by
  by_cases h : x = 0
  · rw [if_pos h, h]
    have e : (0 : Int) - 1 + W = W - 1 := by ring
    rw [e]
    exact Int.emod_eq_of_lt (by omega) (by omega)
  · rw [if_neg h]
    have e : x - 1 + W = (x - 1) + W * 1 := by ring
    rw [e, Int.add_mul_emod_self_left]
    exact Int.emod_eq_of_lt (by omega) (by omega)

theorem min_abs_dist_succ (x W : Int) (hx0 : 0 ≤ x) (hx1 : x < W) (hW : 2 ≤ W) :
    min |x - (x + 1) % W| (W - |x - (x + 1) % W|) = 1 := by
  rw [emod_succ_eq x W hx0 hx1]
  by_cases hc : x + 1 = W
  · rw [if_pos hc]
    rcases abs_cases (x - 0) with ⟨he, _⟩ | ⟨he, _⟩ <;> rw [he] <;> omega
  · rw [if_neg hc]
    rcases abs_cases (x - (x + 1)) with ⟨he, _⟩ | ⟨he, _⟩ <;> rw [he] <;> omega

theorem min_abs_dist_pred (x W : Int) (hx0 : 0 ≤ x) (hx1 : x < W) (hW : 2 ≤ W) :
    min |x - (x - 1 + W) % W| (W - |x - (x - 1 + W) % W|) = 1 := by
  rw [emod_pred_eq x W hx0 hx1]
  by_cases hc : x = 0
  · rw [if_pos hc]
    rcases abs_cases (x - (W - 1)) with ⟨he, _⟩ | ⟨he, _⟩ <;> rw [he] <;> omega
  · rw [if_neg hc]
    rcases abs_cases (x - (x - 1)) with ⟨he, _⟩ | ⟨he, _⟩ <;> rw [he] <;> omega

theorem emod_shift_up_down (y H : Int) (h0 : 0 ≤ y) (h1 : y < H) :
    ((y + H - 1) % H + 1) % H = y := by
  have e1 : y + H - 1 = (y - 1) + H * 1 := by ring
  rw [e1, Int.add_mul_emod_self_left, Int.emod_add_emod]
  have e2 : y - 1 + 1 = y := by ring
  rw [e2, Int.emod_eq_of_lt h0 h1]

theorem emod_shift_down_up (y H : Int) (h0 : 0 ≤ y) (h1 : y < H) :
    ((y + 1) % H + H - 1) % H = y := by
  have e1 : (y + 1) % H + H - 1 = ((y + 1) % H + -1) + H * 1 := by ring
  rw [e1, Int.add_mul_emod_self_left, Int.emod_add_emod]
  have e2 : y + 1 + -1 = y := by ring
  rw [e2, Int.emod_eq_of_lt h0 h1]

/-! ### Claim theorems: toroidal geometry -/

/-- C2: for every map with positive width and height and in-bounds
locations A = (x1, y1) and B = (x2, y2), `distance(A, B)` equals
`min(|x1 - x2|, W - |x1 - x2|) + min(|y1 - y2|, H - |y1 - y2|)`. -/
theorem C2_distance_formula {α : Type} (m : hlt.Map α) (A B : hlt.Location)
    (hW : 0 < m.width) (hH : 0 < m.height)
    (hA : m.inBounds A) (hB : m.inBounds B) :
    m.distance A B =
      min |A.1 - B.1| (m.width - |A.1 - B.1|) +
        min |A.2 - B.2| (m.height - |A.2 - B.2|) := rfl

/-- Witness for C2 at the concrete map `map46`, A = (1, 2), B = (3, 5). -/
theorem C2_witness :
    map46.distance (1, 2) (3, 5) =
      min |(1 : Int) - 3| (map46.width - |(1 : Int) - 3|) +
        min |(2 : Int) - 5| (map46.height - |(2 : Int) - 5|) :=
  C2_distance_formula map46 (1, 2) (3, 5) (by decide) (by decide)
    (by decide) (by decide)

/-- C3: `distance` is symmetric, `distance(A, A) = 0`, and
`distance(A, B) ≤ ⌊W/2⌋ + ⌊H/2⌋` for in-bounds locations. -/
theorem C3_distance_properties {α : Type} (m : hlt.Map α) (A B : hlt.Location)
    (hW : 0 < m.width) (hH : 0 < m.height)
    (hA : m.inBounds A) (hB : m.inBounds B) :
    m.distance A B = m.distance B A ∧ m.distance A A = 0 ∧
      m.distance A B ≤ m.width / 2 + m.height / 2 := by
  obtain ⟨hA1, hA2, hA3, hA4⟩ := hA
  obtain ⟨hB1, hB2, hB3, hB4⟩ := hB
  refine ⟨?_, ?_, ?_⟩
  · simp only [hlt.Map.distance]
    rw [abs_sub_comm A.1 B.1, abs_sub_comm A.2 B.2]
  · simp only [hlt.Map.distance, sub_self, abs_zero, sub_zero]
    omega
  · simp only [hlt.Map.distance]
    rcases abs_cases (A.1 - B.1) with ⟨he1, _⟩ | ⟨he1, _⟩ <;>
      rcases abs_cases (A.2 - B.2) with ⟨he2, _⟩ | ⟨he2, _⟩ <;>
      rw [he1, he2] <;> omega

/-- Witness for C3 at the concrete map `map46`, A = (1, 2), B = (3, 5). -/
theorem C3_witness :
    map46.distance (1, 2) (3, 5) = map46.distance (3, 5) (1, 2) ∧
      map46.distance (1, 2) (1, 2) = 0 ∧
      map46.distance (1, 2) (3, 5) ≤ map46.width / 2 + map46.height / 2 :=
  C3_distance_properties map46 (1, 2) (3, 5) (by decide) (by decide)
    (by decide) (by decide)

/-- C4: `move_location` keeps an in-bounds location in bounds, leaving one
coordinate unchanged and replacing the other with itself plus or minus one,
modulo its dimension. -/
theorem C4_move_location_safe {α : Type} (m : hlt.Map α) (L : hlt.Location)
    (d : hlt.Direction) (hW : 0 < m.width) (hH : 0 < m.height)
    (hL : m.inBounds L) :
    m.inBounds (m.move_location L d) ∧
      (((m.move_location L d).2 = L.2 ∧
          ((m.move_location L d).1 = (L.1 + 1) % m.width ∨
            (m.move_location L d).1 = (L.1 - 1) % m.width)) ∨
        ((m.move_location L d).1 = L.1 ∧
          ((m.move_location L d).2 = (L.2 + 1) % m.height ∨
            (m.move_location L d).2 = (L.2 - 1) % m.height))) := by
  obtain ⟨h1, h2, h3, h4⟩ := hL
  cases d
  case North =>
    refine ⟨⟨h1, h2, Int.emod_nonneg _ (by omega), Int.emod_lt_of_pos _ hH⟩,
      Or.inr ⟨rfl, Or.inr ?_⟩⟩
    show (L.2 + m.height - 1) % m.height = (L.2 - 1) % m.height
    have e : L.2 + m.height - 1 = (L.2 - 1) + m.height * 1 := by ring
    rw [e, Int.add_mul_emod_self_left]
  case South =>
    exact ⟨⟨h1, h2, Int.emod_nonneg _ (by omega), Int.emod_lt_of_pos _ hH⟩,
      Or.inr ⟨rfl, Or.inl rfl⟩⟩
  case East =>
    exact ⟨⟨Int.emod_nonneg _ (by omega), Int.emod_lt_of_pos _ hW, h3, h4⟩,
      Or.inl ⟨rfl, Or.inl rfl⟩⟩
  case West =>
    refine ⟨⟨Int.emod_nonneg _ (by omega), Int.emod_lt_of_pos _ hW, h3, h4⟩,
      Or.inl ⟨rfl, Or.inr ?_⟩⟩
    show (L.1 + m.width - 1) % m.width = (L.1 - 1) % m.width
    have e : L.1 + m.width - 1 = (L.1 - 1) + m.width * 1 := by ring
    rw [e, Int.add_mul_emod_self_left]

/-- Witness for C4 at the concrete map `map46`, L = (0, 5), moving North. -/
theorem C4_witness :
    map46.inBounds (map46.move_location (0, 5) .North) ∧
      (((map46.move_location (0, 5) .North).2 = (5 : Int) ∧
          ((map46.move_location (0, 5) .North).1 = ((0 : Int) + 1) % map46.width ∨
            (map46.move_location (0, 5) .North).1 = ((0 : Int) - 1) % map46.width)) ∨
        ((map46.move_location (0, 5) .North).1 = (0 : Int) ∧
          ((map46.move_location (0, 5) .North).2 = ((5 : Int) + 1) % map46.height ∨
            (map46.move_location (0, 5) .North).2 = ((5 : Int) - 1) % map46.height))) :=
  C4_move_location_safe map46 (0, 5) .North (by decide) (by decide) (by decide)

/-- C9: moving in a direction and then in the opposite direction returns
the original in-bounds location. -/
theorem C9_move_roundtrip {α : Type} (m : hlt.Map α) (L : hlt.Location)
    (hW : 0 < m.width) (hH : 0 < m.height) (hL : m.inBounds L) :
    m.move_location (m.move_location L .North) .South = L ∧
      m.move_location (m.move_location L .South) .North = L ∧
      m.move_location (m.move_location L .East) .West = L ∧
      m.move_location (m.move_location L .West) .East = L := by
  obtain ⟨h1, h2, h3, h4⟩ := hL
  refine ⟨?_, ?_, ?_, ?_⟩
  · show (L.1, ((L.2 + m.height - 1) % m.height + 1) % m.height) = L
    rw [emod_shift_up_down L.2 m.height h3 h4]
  · show (L.1, ((L.2 + 1) % m.height + m.height - 1) % m.height) = L
    rw [emod_shift_down_up L.2 m.height h3 h4]
  · show (((L.1 + 1) % m.width + m.width - 1) % m.width, L.2) = L
    rw [emod_shift_down_up L.1 m.width h1 h2]
  · show (((L.1 + m.width - 1) % m.width + 1) % m.width, L.2) = L
    rw [emod_shift_up_down L.1 m.width h1 h2]

/-- Witness for C9 at the concrete map `map46`, L = (0, 0). -/
theorem C9_witness :
    map46.move_location (map46.move_location (0, 0) .North) .South = ((0 : Int), (0 : Int)) ∧
      map46.move_location (map46.move_location (0, 0) .South) .North = ((0 : Int), (0 : Int)) ∧
      map46.move_location (map46.move_location (0, 0) .East) .West = ((0 : Int), (0 : Int)) ∧
      map46.move_location (map46.move_location (0, 0) .West) .East = ((0 : Int), (0 : Int)) :=
  C9_move_roundtrip map46 (0, 0) (by decide) (by decide) (by decide)

/-- C1 counterexample: on the 1-by-1 map the claim fails as stated — the
location (0, 0) itself occurs among `get_neighbors((0, 0))`, and its
`distance` from (0, 0) is 0, not 1, although the map has width W > 0 and
height H > 0 and (0, 0) is in bounds. -/
theorem C1_counterexample :
    mapOne.inBounds (0, 0) ∧ (0, 0) ∈ mapOne.get_neighbors (0, 0) ∧
      mapOne.distance (0, 0) (0, 0) = 0 := by decide

/-- C1 (amended): on maps with width at least 2 and height at least 2,
`get_neighbors(L)` has exactly 4 entries, each at `distance` exactly 1
from L, and the locations reachable by `move_location` in the four
directions are exactly the entries of `get_neighbors(L)`. -/
theorem C1_neighbors_amended {α : Type} (m : hlt.Map α) (L : hlt.Location)
    (hW : 2 ≤ m.width) (hH : 2 ≤ m.height) (hL : m.inBounds L) :
    (m.get_neighbors L).length = 4 ∧
      (∀ n ∈ m.get_neighbors L, m.distance L n = 1) ∧
      (∀ p : hlt.Location,
        (∃ d : hlt.Direction, m.move_location L d = p) ↔
          p ∈ m.get_neighbors L) := by
  obtain ⟨h1, h2, h3, h4⟩ := hL
  refine ⟨rfl, ?_, ?_⟩
  · intro n hn
    simp only [hlt.Map.get_neighbors, List.mem_cons, List.not_mem_nil,
      or_false] at hn
    rcases hn with rfl | rfl | rfl | rfl
    · simp only [hlt.Map.distance, sub_self, abs_zero, sub_zero]
      rw [min_abs_dist_succ L.1 m.width h1 h2 hW]
      omega
    · simp only [hlt.Map.distance, sub_self, abs_zero, sub_zero]
      rw [min_abs_dist_pred L.1 m.width h1 h2 hW]
      omega
    · simp only [hlt.Map.distance, sub_self, abs_zero, sub_zero]
      rw [min_abs_dist_succ L.2 m.height h3 h4 hH]
      omega
    · simp only [hlt.Map.distance, sub_self, abs_zero, sub_zero]
      rw [min_abs_dist_pred L.2 m.height h3 h4 hH]
      omega
  · intro p
    constructor
    · rintro ⟨d, rfl⟩
      cases d
      case North =>
        have e : L.2 + m.height - 1 = L.2 - 1 + m.height := by ring
        simp only [hlt.Map.move_location, hlt.Map.get_neighbors, e,
          List.mem_cons, List.not_mem_nil, or_false]
        tauto
      case South =>
        simp only [hlt.Map.move_location, hlt.Map.get_neighbors,
          List.mem_cons, List.not_mem_nil, or_false]
        tauto
      case East =>
        simp only [hlt.Map.move_location, hlt.Map.get_neighbors,
          List.mem_cons, List.not_mem_nil, or_false]
        tauto
      case West =>
        have e : L.1 + m.width - 1 = L.1 - 1 + m.width := by ring
        simp only [hlt.Map.move_location, hlt.Map.get_neighbors, e,
          List.mem_cons, List.not_mem_nil, or_false]
        tauto
    · intro hp
      simp only [hlt.Map.get_neighbors, List.mem_cons, List.not_mem_nil,
        or_false] at hp
      rcases hp with rfl | rfl | rfl | rfl
      · exact ⟨.East, rfl⟩
      · refine ⟨.West, ?_⟩
        show ((L.1 + m.width - 1) % m.width, L.2) = _
        have e : L.1 + m.width - 1 = L.1 - 1 + m.width := by ring
        rw [e]
      · exact ⟨.South, rfl⟩
      · refine ⟨.North, ?_⟩
        show (L.1, (L.2 + m.height - 1) % m.height) = _
        have e : L.2 + m.height - 1 = L.2 - 1 + m.height := by ring
        rw [e]

/-- Witness for the amended C1 at the concrete map `map46`, L = (3, 0). -/
theorem C1_witness :
    (map46.get_neighbors (3, 0)).length = 4 ∧
      (∀ n ∈ map46.get_neighbors (3, 0), map46.distance (3, 0) n = 1) ∧
      (∀ p : hlt.Location,
        (∃ d : hlt.Direction, map46.move_location (3, 0) d = p) ↔
          p ∈ map46.get_neighbors (3, 0)) :=
  C1_neighbors_amended map46 (3, 0) (by decide) (by decide) (by decide)

/-! ### Helper lemmas for stream output -/

theorem cell_foldl_eq_map {α : Type} (cellEnc : α → String) (row : List α)
    (acc : List String) :
    row.foldl (fun os2 cell => os2 ++ [cellEnc cell]) acc = acc ++ row.map cellEnc := by
  induction row generalizing acc with
  | nil => simp
  | cons c cs ih => simp [ih]

theorem grid_foldl_eq_flatten {α : Type} (cellEnc : α → String)
    (rows : List (List α)) (acc : List String) :
    rows.foldl (fun os row => row.foldl (fun os2 cell => os2 ++ [cellEnc cell]) os) acc
      = acc ++ rows.flatten.map cellEnc := by
  induction rows generalizing acc with
  | nil => simp
  | cons r rs ih =>
    rw [List.foldl_cons, cell_foldl_eq_map, ih, List.flatten_cons, List.map_append,
      List.append_assoc]

theorem join_foldl_init (s : String) (l : List String) :
    l.foldl (fun r t => r ++ t) s = s ++ String.join l := by
  induction l generalizing s with
  | nil => simp [String.join]
  | cons x xs ih =>
    show xs.foldl (fun r t => r ++ t) (s ++ x) = s ++ String.join (x :: xs)
    rw [ih]
    show s ++ x ++ String.join xs = s ++ List.foldl (fun r t => r ++ t) ("" ++ x) xs
    rw [ih ("" ++ x), String.empty_append, String.append_assoc]

theorem join_cons (x : String) (xs : List String) :
    String.join (x :: xs) = x ++ String.join xs := by
  show List.foldl (fun r t => r ++ t) ("" ++ x) xs = x ++ String.join xs
  rw [join_foldl_init, String.empty_append]

theorem join_append (l1 l2 : List String) :
    String.join (l1 ++ l2) = String.join l1 ++ String.join l2 := by
  induction l1 with
  | nil => simp [String.join]
  | cons x xs ih => rw [List.cons_append, join_cons, ih, join_cons, String.append_assoc]

/-! ### Claim theorem: bot serial format -/

/-- C5: writing a `Map` in bot serial format outputs the width, then the
height, then every cell of the grid as one dense row-major run with no
other separators between the cells; being a pure function of the map value
(and the fixed cell encoding), the output is deterministic. -/
theorem C5_bot_serial_format {α : Type} (cellEnc : α → String) (m : hlt.Map α) :
    m.botSerial cellEnc = hlt.botSerialSpec cellEnc m := by
  unfold hlt.Map.botSerial hlt.Map.botSerialChunks hlt.botSerialSpec
  rw [grid_foldl_eq_flatten, join_append]
  rw [join_cons, join_cons, join_cons, join_cons]
  simp only [String.append_empty, String.append_assoc]
  rfl

/-! ### Helper lemmas for the setup phase -/

theorem overrideLaunchLoop_all_ok (launchOk : String → Bool) :
    ∀ args : List String, args.length % 2 = 0 →
      (∀ c ∈ evenIdx args, launchOk c = true) →
      overrideLaunchLoop launchOk args =
        ((evenIdx args).map SetupEvent.launch, oddIdx args, true)
  | [] => fun _ _ => rfl
  | [c] => fun h _ => by simp at h
  | c :: n :: rest => fun h hok => by
    have hc : launchOk c = true := hok c (by simp [evenIdx])
    have hr : rest.length % 2 = 0 := by
      simp only [List.length_cons] at h
      omega
    have ih := overrideLaunchLoop_all_ok launchOk rest hr
      (fun x hx => hok x (by simp [evenIdx, hx]))
    simp [overrideLaunchLoop, hc, ih, evenIdx, oddIdx]

theorem defaultLaunchLoop_all_ok (launchOk : String → Bool) :
    ∀ args : List String, (∀ c ∈ args, launchOk c = true) →
      defaultLaunchLoop launchOk args = (args.map SetupEvent.launch, true)
  | [] => fun _ => rfl
  | c :: rest => fun hok => by
    have hc : launchOk c = true := hok c (by simp)
    have ih := defaultLaunchLoop_all_ok launchOk rest
      (fun x hx => hok x (by simp [hx]))
    simp [defaultLaunchLoop, hc, ih]

theorem mem_of_mem_evenIdx : ∀ (l : List String) (c : String), c ∈ evenIdx l → c ∈ l
  | [], c => fun h => by simp [evenIdx] at h
  | [x], c => fun h => by simpa [evenIdx] using h
  | x :: y :: rest, c => fun h => by
    simp only [evenIdx, List.mem_cons] at h
    rcases h with rfl | h
    · simp
    · have := mem_of_mem_evenIdx rest c h
      simp [this]

theorem evenIdx_length : ∀ l : List String, l.length % 2 = 0 →
    (evenIdx l).length = l.length / 2
  | [] => fun _ => rfl
  | [c] => fun h => by simp at h
  | c :: n :: rest => fun h => by
    have hr : rest.length % 2 = 0 := by
      simp only [List.length_cons] at h
      omega
    have ih := evenIdx_length rest hr
    simp only [evenIdx, List.length_cons, ih]
    omega

theorem hasExit_map_launch (l : List String) :
    hasExit (l.map SetupEvent.launch) = false := by
  induction l with
  | nil => rfl
  | cons c cs ih =>
    simp only [List.map_cons, hasExit, List.any_cons] at ih ⊢
    simp [ih]

theorem countLaunches_map_launch (l : List String) :
    countLaunches (l.map SetupEvent.launch) = l.length := by
  induction l with
  | nil => rfl
  | cons c cs ih =>
    simp only [List.map_cons, countLaunches, List.filter_cons] at ih ⊢
    simp [ih]

/-! ### Claim theorems: match setup -/

/-- C7: in override mode, a trailing-argument count that is odd or below 4
causes an error exit with status 1 and no bot launch; an even count of at
least 4 is consumed as alternating (start command, name) pairs — when
every launch succeeds, exactly the commands at even positions are
launched, in order, and exactly the names at odd positions are recorded,
in order. -/
theorem C7_override_args (launchOk : String → Bool) (args : List String) :
    (args.length < 4 ∨ args.length % 2 ≠ 0 →
      overridePhase launchOk args = ([SetupEvent.exitProgram 1], none)) ∧
    (4 ≤ args.length → args.length % 2 = 0 →
      (∀ c ∈ evenIdx args, launchOk c = true) →
      overridePhase launchOk args =
        ((evenIdx args).map SetupEvent.launch, some (oddIdx args))) := by
  constructor
  · intro h
    unfold overridePhase
    rw [if_pos h]
  · intro h4 he hok
    unfold overridePhase
    rw [if_neg (by push_neg; exact ⟨by omega, he⟩)]
    rw [overrideLaunchLoop_all_ok launchOk args he hok]
    simp

/-- Witness for C7: four arguments produce two launches and two recorded
names; three arguments produce an error exit and no launch. -/
theorem C7_witness :
    overridePhase (fun _ => true) ["./ba", "Alice", "./bb", "Bob"] =
        ([SetupEvent.launch "./ba", SetupEvent.launch "./bb"],
          some ["Alice", "Bob"]) ∧
      overridePhase (fun _ => true) ["./ba", "Alice", "./bb"] =
        ([SetupEvent.exitProgram 1], none) := by
  constructor
  · have h := (C7_override_args (fun _ => true) ["./ba", "Alice", "./bb", "Bob"]).2
      (by decide) (by decide) (fun c _ => rfl)
    simpa [evenIdx, oddIdx] using h
  · exact (C7_override_args (fun _ => true) ["./ba", "Alice", "./bb"]).1 (by decide)

/-- C6 counterexample: with two bot commands and `-n 2` (an
InvalidMatchSetup: the n-flag conflicts with a multi-bot launch), the
program still launches both bots first and only then exits with status 1,
so a bot start command is executed although match setup is invalid. -/
theorem C6_counterexample :
    invalidMatchSetup ⟨false, 2, ["./botA", "./botB"]⟩ ∧
      (runSetup (fun _ => true) ⟨false, 2, ["./botA", "./botB"]⟩).1 =
        [SetupEvent.launch "./botA", SetupEvent.launch "./botB",
          SetupEvent.exitProgram 1] := by
  constructor
  · simp [invalidMatchSetup, mainPlayerCount]
  · rfl

/-- C6 (amended): every InvalidMatchSetup failure — an `-n` value
conflicting with a multi-bot launch, or an effective player count outside
1..6 — causes a fatal exit with status 1 before the game is created (no
`createGame` event ever occurs), but only after every requested bot start
command has been executed: the launch phase runs to completion first. -/
theorem C6_invalid_setup_amended (launchOk : String → Bool) (a : MainArgs)
    (hok : ∀ c ∈ a.unlabeledArgs, launchOk c = true)
    (hargs : if a.override_names then
        4 ≤ a.unlabeledArgs.length ∧ a.unlabeledArgs.length % 2 = 0
      else 1 ≤ a.unlabeledArgs.length)
    (hinv : invalidMatchSetup a) :
    (runSetup launchOk a).1 =
        (if a.override_names then (evenIdx a.unlabeledArgs).map SetupEvent.launch
          else a.unlabeledArgs.map SetupEvent.launch) ++ [SetupEvent.exitProgram 1] ∧
      ∀ n, SetupEvent.createGame n ∉ (runSetup launchOk a).1 := by
  obtain ⟨ov, np, args⟩ := a
  cases ov
  case false =>
    have hd := defaultLaunchLoop_all_ok launchOk args hok
    have hargs' : 1 ≤ args.length := by simpa using hargs
    have hinv' : (args.length > 1 ∧ np ≠ 1) ∨
        (if args.length > 1 then args.length else np) > 6 ∨
        (if args.length > 1 then args.length else np) < 1 := by
      simpa [invalidMatchSetup, mainPlayerCount] using hinv
    have hphase : defaultPhase launchOk args = (args.map SetupEvent.launch, none) := by
      unfold defaultPhase
      rw [if_neg (by omega), hd]
      simp
    have key : runSetup launchOk ⟨false, np, args⟩ =
        (args.map SetupEvent.launch ++ [SetupEvent.exitProgram 1], none) := by
      unfold runSetup
      simp only [hphase, hasExit_map_launch, countLaunches_map_launch,
        Bool.false_eq_true, if_false]
      rcases hinv' with h | h
      · rw [if_pos h]
      · by_cases h1 : args.length > 1 ∧ np ≠ 1
        · rw [if_pos h1]
        · rw [if_neg h1, if_pos h]
    refine ⟨?_, ?_⟩
    · rw [key]
      simp
    · intro n
      rw [key]
      simp
  case true =>
    obtain ⟨h4, he⟩ : 4 ≤ args.length ∧ args.length % 2 = 0 := by simpa using hargs
    have hok' : ∀ c ∈ evenIdx args, launchOk c = true :=
      fun c hc => hok c (mem_of_mem_evenIdx args c hc)
    have hloop := overrideLaunchLoop_all_ok launchOk args he hok'
    have hinv' : (args.length / 2 > 1 ∧ np ≠ 1) ∨
        (if args.length / 2 > 1 then args.length / 2 else np) > 6 ∨
        (if args.length / 2 > 1 then args.length / 2 else np) < 1 := by
      simpa [invalidMatchSetup, mainPlayerCount] using hinv
    have hphase : overridePhase launchOk args =
        ((evenIdx args).map SetupEvent.launch, some (oddIdx args)) := by
      unfold overridePhase
      rw [if_neg (by push_neg; exact ⟨by omega, he⟩), hloop]
      simp
    have key : runSetup launchOk ⟨true, np, args⟩ =
        ((evenIdx args).map SetupEvent.launch ++ [SetupEvent.exitProgram 1],
          some (oddIdx args)) := by
      unfold runSetup
      simp only [hphase, if_true, hasExit_map_launch, countLaunches_map_launch,
        evenIdx_length args he, Bool.false_eq_true, if_false]
      rcases hinv' with h | h
      · rw [if_pos h]
      · by_cases h1 : args.length / 2 > 1 ∧ np ≠ 1
        · rw [if_pos h1]
        · rw [if_neg h1, if_pos h]
    refine ⟨?_, ?_⟩
    · rw [key]
      simp
    · intro n
      rw [key]
      simp

/-- Witness for the amended C6: two bots with `-n 2` are both launched,
then the program exits with status 1 and never creates a game. -/
theorem C6_witness :
    (runSetup (fun _ => true) ⟨false, 2, ["./botA", "./botB"]⟩).1 =
        (if (false : Bool) then (evenIdx ["./botA", "./botB"]).map SetupEvent.launch
          else ["./botA", "./botB"].map SetupEvent.launch) ++ [SetupEvent.exitProgram 1] ∧
      ∀ n, SetupEvent.createGame n ∉
        (runSetup (fun _ => true) ⟨false, 2, ["./botA", "./botB"]⟩).1 :=
  C6_invalid_setup_amended (fun _ => true) ⟨false, 2, ["./botA", "./botB"]⟩
    (fun c _ => rfl) (by decide) (by simp [invalidMatchSetup, mainPlayerCount])

/-! ### Helper lemmas for the statistics output -/

theorem foldl_append_map {β : Type} (f : β → List String) (ps : List β)
    (acc : List String) :
    ps.foldl (fun os p => os ++ f p) acc = acc ++ (ps.map f).flatten := by
  induction ps generalizing acc with
  | nil => simp
  | cons p ps ih =>
    rw [List.foldl_cons, ih, List.map_cons, List.flatten_cons, List.append_assoc]

theorem join_flatten (l : List (List String)) :
    String.join l.flatten = String.join (l.map String.join) := by
  induction l with
  | nil => rfl
  | cons x xs ih => rw [List.flatten_cons, join_append, ih, List.map_cons, join_cons]

theorem data_infix_join (s : String) (l : List String) (h : s ∈ l) :
    s.data <:+: (String.join l).data := by
  induction l with
  | nil => simp at h
  | cons x xs ih =>
    rw [join_cons, String.data_append]
    rcases List.mem_cons.mp h with rfl | hx
    · exact ⟨[], (String.join xs).data, by simp⟩
    · exact (ih hx).trans ⟨x.data, [], by simp⟩

/-! ### Claim theorems: final statistics, seed selection -/

set_option maxHeartbeats 1000000 in
/-- C8: the final statistics are emitted in exactly one of two forms
selected solely by the quiet flag — the machine-parsable encoding of the
statistics object when quiet is set, otherwise one human-readable line per
player whose text contains the player's tag, rank, last frame alive,
ships produced, and damage dealt. -/
theorem C8_final_statistics (quiet : Bool) (statsEnc : GameStatistics → String)
    (getName : Nat → String) (stats : GameStatistics) :
    (quiet = true → finalOutput quiet statsEnc getName stats = statsEnc stats) ∧
      (quiet = false →
        finalOutput quiet statsEnc getName stats =
          String.join (stats.player_statistics.map (humanLine getName)) ∧
        ∀ p ∈ stats.player_statistics,
          (humanLine getName p).data <:+:
            (finalOutput quiet statsEnc getName stats).data ∧
          (toString p.tag).data <:+: (humanLine getName p).data ∧
          (toString p.rank).data <:+: (humanLine getName p).data ∧
          (toString p.last_frame_alive).data <:+: (humanLine getName p).data ∧
          (toString p.total_ship_count).data <:+: (humanLine getName p).data ∧
          (toString p.damage_dealt).data <:+: (humanLine getName p).data) := by
  constructor
  · rintro rfl
    show String.join [statsEnc stats] = statsEnc stats
    rw [join_cons]
    exact String.append_empty _
  · rintro rfl
    have hfo : finalOutput false statsEnc getName stats =
        String.join (stats.player_statistics.map (humanLine getName)) := by
      show String.join
          (stats.player_statistics.foldl (fun os p => os ++ humanLineChunks getName p) [])
        = _
      rw [foldl_append_map, List.nil_append, join_flatten, List.map_map]
      rfl
    refine ⟨hfo, ?_⟩
    intro p hp
    refine ⟨?_, ?_, ?_, ?_, ?_, ?_⟩
    · rw [hfo]
      exact data_infix_join _ _ (List.mem_map_of_mem _ hp)
    · exact data_infix_join _ _ (by simp [humanLineChunks])
    · exact data_infix_join _ _ (by simp [humanLineChunks])
    · exact data_infix_join _ _ (by simp [humanLineChunks])
    · exact data_infix_join _ _ (by simp [humanLineChunks])
    · exact data_infix_join _ _ (by simp [humanLineChunks])

/-- Witness for C8 at the concrete statistics `stats1`: quiet mode emits
the machine encoding, non-quiet mode emits the per-player summary. -/
theorem C8_witness :
    finalOutput true (fun _ => "ENC") (fun _ => "Bot") stats1 = "ENC" ∧
      finalOutput false (fun _ => "ENC") (fun _ => "Bot") stats1 =
        String.join (stats1.player_statistics.map (humanLine (fun _ => "Bot"))) := by
  constructor
  · exact (C8_final_statistics true (fun _ => "ENC") (fun _ => "Bot") stats1).1 rfl
  · exact ((C8_final_statistics false (fun _ => "ENC") (fun _ => "Bot") stats1).2 rfl).1

/-- C10 counterexample: with seed argument 0 and a clock reading of 0
microseconds, the chosen seed (0) does equal the seed argument although
the argument is not nonzero, so the claimed equivalence fails. -/
theorem C10_counterexample :
    ¬ (chooseSeed 0 0 = 0 ↔ (0 : Nat) ≠ 0) := by decide

/-- C10 (amended): a nonzero seed argument is used as the map-generator
seed; a seed argument of 0 — whether explicitly supplied or the default
for an absent argument — is replaced by the clock-derived value
`clockMicros % 4294967295`, which does not depend on the argument (and can
itself coincide with 0). -/
theorem C10_seed_amended (seedArg clockMicros : Nat) :
    (seedArg ≠ 0 → chooseSeed seedArg clockMicros = seedArg) ∧
      (seedArg = 0 → chooseSeed seedArg clockMicros = clockMicros % 4294967295) := by
  constructor
  · intro h
    simp [chooseSeed, h]
  · intro h
    simp [chooseSeed, h]

/-- Witness for the amended C10: seed 7 is used verbatim; seed 0 yields
the clock-derived value. -/
theorem C10_witness :
    chooseSeed 7 123 = 7 ∧ chooseSeed 0 123 = 123 % 4294967295 :=
  ⟨(C10_seed_amended 7 123).1 (by decide), (C10_seed_amended 0 123).2 rfl⟩
